import Mathlib

/-!
Verification development for `RawData/GenerateODPairs.cpp` from the
frank-wolfe-traffic repository.

The batch driver (`main` in GenerateODPairs.cpp) is embedded shallowly as the
pure function `runParsed` below.  The collaborators the driver uses but whose
code is not part of the repository snapshot (the command-line parser, the
OD-pair generator with its shortest-path explorer) are modelled from the
specification; each such definition says so in its doc comment.  Machine
integers are modelled as `Int`/`Nat` with explicit reduction modulo `2^32`
where 32-bit overflow matters.
-/

namespace GenODP

/-! ## Random engine

`std::default_random_engine` (line 61 of the source) is, on the reference
platform (libstdc++), `std::minstd_rand0`: the linear congruential generator
`x := 16807 * x mod 2147483647`.  Seeding reduces the seed modulo the modulus
and replaces a zero state by 1. -/

def lcgModulus : Nat := 2147483647

def lcgMultiplier : Nat := 16807

/-- Seeding of the engine: `std::default_random_engine rand(seed)` (line 61). -/
def engineSeed (seed : Int) : Nat :=
  let m := (seed % (2147483647 : Int)).toNat
  if m = 0 then 1 else m

/-- One draw of the engine: advance the state and return it. -/
def engineNext (s : Nat) : Nat := lcgMultiplier * s % lcgModulus

/-! ## Graph

The input graph is a `StaticGraph` whose edges carry a length and a travel
time attribute (line 62).  It is external to the core (spec section 6): an
immutable adjacency structure with a vertex count, per-vertex out-edges and
two non-negative numeric costs per edge. -/

structure Edge where
  head : Nat
  length : Nat
  travelTime : Nat
deriving DecidableEq, Repr

structure Graph where
  outEdges : List (List Edge)
deriving DecidableEq, Repr

def Graph.numVertices (g : Graph) : Nat := g.outEdges.length

/-- Lines 72-75 of the source: with `-len`, copy the physical length of every
edge into its travel-time attribute, so that travel time acts as the active
cost afterwards. -/
def applyLenCost (g : Graph) : Graph :=
  Graph.mk (g.outEdges.map (List.map (fun e => Edge.mk e.head e.length e.length)))

/-! ## ShortestPathExplorer

Modelled from the spec (section 4.1): a Dijkstra expansion from a source
vertex under the travel-time cost, producing the finalized vertices in
non-decreasing distance order, ties broken by smaller vertex index.  The
frontier is an association list of candidate distances; the fuel argument
(number of vertices) bounds the loop. -/

/-- Is candidate `p` strictly better than `q` (smaller distance, ties broken
by smaller vertex index)? -/
def betterCand (p q : Nat × Nat) : Bool :=
  p.2 < q.2 || (p.2 == q.2 && p.1 < q.1)

/-- Minimum of the frontier under `betterCand`. -/
def findMinFrontier : List (Nat × Nat) → Option (Nat × Nat)
  | [] => none
  | p :: rest =>
    match findMinFrontier rest with
    | none => some p
    | some q => if betterCand q p then some q else some p

/-- Update the frontier with a candidate distance `d` for vertex `w`. -/
def updateFrontier (w d : Nat) : List (Nat × Nat) → List (Nat × Nat)
  | [] => [(w, d)]
  | (u, du) :: rest =>
    if u = w then (u, min du d) :: rest else (u, du) :: updateFrontier w d rest

/-- Relax the out-edges of a finalized vertex at distance `dv`, skipping
already finalized heads. -/
def relaxEdges (settled : List Nat) (dv : Nat) : List Edge → List (Nat × Nat) → List (Nat × Nat)
  | [], fr => fr
  | e :: rest, fr =>
    relaxEdges settled dv rest
      (if settled.contains e.head then fr else updateFrontier e.head (dv + e.travelTime) fr)

/-- The Dijkstra loop: repeatedly extract the frontier minimum, finalize it
and relax its out-edges.  `acc` holds the finalized (vertex, distance) pairs
in reverse order. -/
def dijkstraLoop (g : Graph) : Nat → List (Nat × Nat) → List (Nat × Nat) → List (Nat × Nat)
  | 0, acc, _ => acc.reverse
  | fuel + 1, acc, frontier =>
    match findMinFrontier frontier with
    | none => acc.reverse
    | some vd =>
      let fr1 := frontier.filter (fun p => decide (p.1 ≠ vd.1))
      let settledVs := vd.1 :: acc.map (fun p => p.1)
      dijkstraLoop g fuel ((vd.1, vd.2) :: acc)
        (relaxEdges settledVs vd.2 (g.outEdges.getD vd.1 []) fr1)

/-- The finalized (vertex, distance) sequence of a full expansion from `src`:
rank 1 is the source itself at distance 0. -/
def dijkstraOrder (g : Graph) (src : Nat) : List (Nat × Nat) :=
  dijkstraLoop g g.numVertices [] [(src, 0)]

/-! ## ODPairSampler

Modelled from the spec (section 4.2): three sampling operations, each first
drawing the origin uniformly at random over `[0, numVertices)` from the shared
engine.  On exhaustion (target rank or distance unreachable) the operations
return the last finalized vertex; the spec leaves the failure policy to the
external batch driver, and no claim below depends on the exhaustion case. -/

structure OriginDestination where
  origin : Nat
  destination : Nat
deriving DecidableEq, Repr

/-- Draw a vertex uniformly at random, advancing the engine state. -/
def uniformVertex (g : Graph) (s : Nat) : Nat × Nat :=
  let t := engineNext s
  (t % g.numVertices, t)

/-- Uniform pair: origin and destination both uniform, no shortest path. -/
def getRandomODPair (g : Graph) (s : Nat) : OriginDestination × Nat :=
  let ov := uniformVertex g s
  let dv := uniformVertex g ov.2
  (OriginDestination.mk ov.1 dv.1, dv.2)

/-- Last finalized vertex of an expansion, defaulting to `dflt`. -/
def lastFinalized (fin : List (Nat × Nat)) (dflt : Nat) : Nat :=
  match fin.getLast? with
  | some p => p.1
  | none => dflt

/-- Rank-targeted pair: the destination is the vertex finalized at position
`rank` (the origin counts as rank 1). -/
def getRandomODPairChosenByDijkstraRank (g : Graph) (rank : Int) (s : Nat) :
    OriginDestination × Nat :=
  let ov := uniformVertex g s
  let fin := dijkstraOrder g ov.1
  let dest :=
    match fin.get? (rank.toNat - 1) with
    | some p => p.1
    | none => lastFinalized fin ov.1
  (OriginDestination.mk ov.1 dest, ov.2)

/-- Distance-targeted pair: the destination is the first vertex finalized at
distance greater than or equal to the actual target. -/
def getRandomODPairChosenByDistance (g : Graph) (target : Int) (s : Nat) :
    OriginDestination × Nat :=
  let ov := uniformVertex g s
  let fin := dijkstraOrder g ov.1
  let dest :=
    match fin.find? (fun p => decide (target ≤ (p.2 : Int))) with
    | some p => p.1
    | none => lastFinalized fin ov.1
  (OriginDestination.mk ov.1 dest, ov.2)

/-! ## Geometric distribution

`std::geometric_distribution<>(p)` draws the number of failures before the
first success of a Bernoulli(`p`) process: `P(X = k) = p * (1 - p)^k` for
`k = 0, 1, 2, ...`.  The driver constructs it with `p = 1.0 / distance`
(line 108).  The analytic probability mass function and its mean are stated
below; the executable draw used inside the run trace realizes the Bernoulli
process with a fuel bound (the exact bit-stream consumption of the C++
library is implementation defined, which no claim depends on). -/

/-- Probability mass function of `std::geometric_distribution` with success
probability `p`: the probability of `k` failures before the first success. -/
noncomputable def geometricPMF (p : Real) (k : Nat) : Real := p * (1 - p) ^ k

/-- The distribution parameter the driver passes: `1.0 / distance`
(line 108 of the source). -/
noncomputable def cppGeoParam (d : Real) : Real := 1 / d

/-- Executable model of one geometric draw: count failures of Bernoulli
trials with success probability `1/d`, fuel bounded. -/
def geoDrawAux (d : Nat) : Nat → Nat → Nat → Nat × Nat
  | 0, fails, s => (fails, s)
  | fuel + 1, fails, s =>
    let t := engineNext s
    if t % d = 0 then (fails, t) else geoDrawAux d fuel (fails + 1) t

def geoDraw (d : Int) (s : Nat) : Int × Nat :=
  let r := geoDrawAux d.toNat 1000 0 s
  ((r.1 : Int), r.2)

/-! ## Command line

The command-line parser lives outside the repository snapshot.  Modelled from
the spec: `parse` tokenizes `argv` (its failure is the caught branch at lines
46-49); `getValue<T>(name)` yields the value of a required option, raising
`std::invalid_argument` when the option is missing or its value is a
malformed number, while `getValue<T>(name, default)` substitutes the default
when the option is absent (the form used for the seed at line 61).  A
`Cmdline` holds the raw option values after successful tokenization. -/

structure Cmdline where
  helpFlag : Bool
  n : Option String
  s : Option String
  lenFlag : Bool
  r : Option (List String)
  d : Option String
  geoFlag : Bool
  i : Option String
  o : Option String
deriving DecidableEq, Repr

/-- Numeric value of a decimal digit character. -/
def digitVal (ch : Char) : Option Nat :=
  if 48 ≤ ch.toNat ∧ ch.toNat ≤ 57 then some (ch.toNat - 48) else none

/-- Accumulating decimal parser over a character list; `none` accumulator
means no digit seen yet. -/
def parseDigits : List Char → Option Nat → Option Nat
  | [], acc => acc
  | ch :: rest, acc =>
    match digitVal ch, acc with
    | some dv, some a => parseDigits rest (some (10 * a + dv))
    | some dv, none => parseDigits rest (some dv)
    | none, _ => none

/-- Modelled from the spec: the numeric conversion `lexicalCast<int>` of the
command-line parser, reading an optionally negated decimal integer and
failing on malformed input. -/
def parseIntStr (str : String) : Option Int :=
  match str.toList with
  | '-' :: rest => (parseDigits rest none).map (fun v => -(v : Int))
  | l => (parseDigits l none).map (fun v => (v : Int))

/-- Modelled from the spec: `getValue<int>(name)` without a default raises
`invalid_argument` on a missing required option or a malformed numeric
value. -/
def getValueInt : Option String → Except String Int
  | none => Except.error "missing required option"
  | some v =>
    match parseIntStr v with
    | some x => Except.ok x
    | none => Except.error ("invalid argument -- '" ++ v ++ "'")

/-- Modelled from the spec: `getValue<std::string>(name)` without a default
raises `invalid_argument` on a missing required option. -/
def getValueStr : Option String → Except String String
  | none => Except.error "missing required option"
  | some v => Except.ok v

/-- Modelled from the spec: `getValue<int>(name, default)` returns the
default when the option is absent (line 61). -/
def getValueIntD (v : Option String) (dflt : Int) : Except String Int :=
  match v with
  | none => Except.ok dflt
  | some w => getValueInt (some w)

/-- The command line with the `-s` option replaced. -/
def withSeed (c : Cmdline) (v : Option String) : Cmdline :=
  Cmdline.mk c.helpFlag c.n v c.lenFlag c.r c.d c.geoFlag c.i c.o

/-- Modelled from the spec: `getValues<int>("r")` converts every listed rank,
raising `invalid_argument` on the first malformed value (line 94). -/
def parseRanks : List String → Except String (List Int)
  | [] => Except.ok []
  | v :: rest =>
    match parseIntStr v with
    | none => Except.error ("invalid argument -- '" ++ v ++ "'")
    | some k =>
      match parseRanks rest with
      | Except.error m => Except.error m
      | Except.ok ks => Except.ok (k :: ks)

/-! ## 32-bit shift

Line 98/99 of the source computes the target rank as `1 << rank` on a 32-bit
signed `int`.  Overflow is modelled as reduction modulo `2^32` followed by
two's-complement reinterpretation. -/

/-- Reinterpret a natural number modulo `2^32` as a signed 32-bit value. -/
def int32OfNat (x : Nat) : Int :=
  let m := x % 4294967296
  if m < 2147483648 then (m : Int) else (m : Int) - 4294967296

/-- `1 << k` on a 32-bit signed int (lines 98-99). -/
def shl32 (k : Int) : Int := int32OfNat (Nat.shiftLeft 1 k.toNat)

/-! ## The batch driver -/

/-- One record written by the driver: the pair, and in rank mode the Dijkstra
rank column. -/
structure Record where
  origin : Nat
  destination : Nat
  rank : Option Int
deriving DecidableEq, Repr

/-- The argument of one invocation of the sampler. -/
inductive SamplerCall where
  | uniform : SamplerCall
  | byRank : Int → SamplerCall
  | byDistance : Int → SamplerCall
deriving DecidableEq, Repr

/-- The three methodology branches of the driver (lines 86, 104, 132). -/
inductive Mode where
  | rank : Mode
  | distance : Mode
  | uniform : Mode
deriving DecidableEq, Repr

/-- Mode selection exactly as the if / else-if / else chain of the source:
`-r` wins, then `-d`, and uniform is the default. -/
def modeOf (c : Cmdline) : Mode :=
  if c.r.isSome then Mode.rank
  else if c.d.isSome then Mode.distance
  else Mode.uniform

/-- The mode a sampler invocation belongs to. -/
def callMode : SamplerCall → Mode
  | SamplerCall.uniform => Mode.uniform
  | SamplerCall.byRank _ => Mode.rank
  | SamplerCall.byDistance _ => Mode.distance

/-- CSV rendering of one record (lines 99, 128, 141). -/
def renderRecord (rec : Record) : String :=
  toString rec.origin ++ "," ++ toString rec.destination ++
    (match rec.rank with
     | some rk => "," ++ toString rk
     | none => "")

/-- The inner loop of the rank mode (lines 97-101): `npairs` invocations of
the rank-targeted sampler with the fixed 32-bit argument `arg`. -/
def runRankBatch (g : Graph) (arg : Int) : Nat → Nat → List SamplerCall × List Record × Nat
  | 0, s => ([], [], s)
  | npairs + 1, s =>
    let pr := getRandomODPairChosenByDijkstraRank g arg s
    let rest := runRankBatch g arg npairs pr.2
    (SamplerCall.byRank arg :: rest.1,
     Record.mk pr.1.origin pr.1.destination (some arg) :: rest.2.1,
     rest.2.2)

/-- The outer loop of the rank mode (line 94): one batch per listed rank,
with argument `1 << k`. -/
def runRankAll (g : Graph) (npairs : Nat) : List Int → Nat → List SamplerCall × List Record × Nat
  | [], s => ([], [], s)
  | k :: ks, s =>
    let b := runRankBatch g (shl32 k) npairs s
    let rest := runRankAll g npairs ks b.2.2
    (b.1 ++ rest.1, b.2.1 ++ rest.2.1, rest.2.2)

/-- The distance-mode loop (lines 125-130): per pair, the actual target is a
fresh geometric draw when `-geo` is set and the configured distance
otherwise. -/
def runDistBatch (g : Graph) (dVal : Int) (isGeo : Bool) : Nat → Nat → List SamplerCall × List Record × Nat
  | 0, s => ([], [], s)
  | npairs + 1, s =>
    let ad := if isGeo then geoDraw dVal s else (dVal, s)
    let pr := getRandomODPairChosenByDistance g ad.1 ad.2
    let rest := runDistBatch g dVal isGeo npairs pr.2
    (SamplerCall.byDistance ad.1 :: rest.1,
     Record.mk pr.1.origin pr.1.destination none :: rest.2.1,
     rest.2.2)

/-- The uniform-mode loop (lines 139-143). -/
def runUniformBatch (g : Graph) : Nat → Nat → List SamplerCall × List Record × Nat
  | 0, s => ([], [], s)
  | npairs + 1, s =>
    let pr := getRandomODPair g s
    let rest := runUniformBatch g npairs pr.2
    (SamplerCall.uniform :: rest.1,
     Record.mk pr.1.origin pr.1.destination none :: rest.2.1,
     rest.2.2)

/-- The external world the driver touches: whether the input graph file opens
and parses (`in.good()`, line 64), and which output paths an `ofstream` can
open (line 78). -/
structure Env where
  graphFile : Option Graph
  outWritable : String → Bool

/-- Outcome of one process run.  `usage` is the `-help` branch (exit
success).  `parseError` is a tokenization failure caught at lines 46-49:
corrective message, `EXIT_FAILURE`.  `uncaught` is an exception thrown
outside every try block (lines 56-58): `std::terminate`, no corrective
message.  `reportedError` is an exception caught at lines 147-150:
corrective message, `EXIT_FAILURE`.  `ok` carries the output path, the lines
of the CSV file, the sequence of sampler invocations and the structured
records. -/
inductive RunResult where
  | usage : RunResult
  | parseError : String → RunResult
  | uncaught : String → RunResult
  | reportedError : String → RunResult
  | ok : String → List String → List SamplerCall → List Record → RunResult
deriving DecidableEq, Repr

/-- The methodology line the driver writes (lines 81, 88, 110-111, 134). -/
def methodologyLine : Mode → Bool → Int → String
  | Mode.rank, _, _ => "Dijkstra rank"
  | Mode.distance, isGeo, dVal =>
    (if isGeo then "geometrically distributed" else "equidistant") ++
      " (" ++ toString dVal ++ ")"
  | Mode.uniform, _, _ => "random"

/-- The column-header line (lines 89, 112, 135): the source writes the same
three column names in all three modes. -/
def columnHeader : String := "origin,destination,dijkstra_rank"

/-- The file prologue: the two comment lines and the column header. -/
def filePrologue (infile : String) (m : Mode) (isGeo : Bool) (dVal : Int) : List String :=
  ["# Input graph: " ++ infile,
   "# Methodology: " ++ methodologyLine m isGeo dVal,
   columnHeader]

/-- The body of `main` after successful tokenization of the command line
(lines 51-151 of the source), as a pure function of the external world and
the parsed options.  The evaluation order matches the source: `-help`; the
unprotected `getValue` calls for `n`, `i`, `o` (lines 56-58, outside every
try block); then inside the try block the seed (line 61), the input graph
(lines 63-65), the output stream on the path `outfile ++ ".csv"` (lines
77-79), and the mode dispatch (lines 86, 104, 132). -/
def runParsed (env : Env) (c : Cmdline) : RunResult :=
  if c.helpFlag then RunResult.usage else
  match getValueInt c.n with
  | Except.error m => RunResult.uncaught m
  | Except.ok numPairs =>
  match getValueStr c.i with
  | Except.error m => RunResult.uncaught m
  | Except.ok infile =>
  match getValueStr c.o with
  | Except.error m => RunResult.uncaught m
  | Except.ok outfile =>
  match getValueIntD c.s 19900325 with
  | Except.error m => RunResult.reportedError m
  | Except.ok seed =>
  let rand0 := engineSeed seed
  match env.graphFile with
  | none => RunResult.reportedError ("file not found -- '" ++ infile ++ "'")
  | some g0 =>
  let g := if c.lenFlag then applyLenCost g0 else g0
  let outPath := outfile ++ ".csv"
  if env.outWritable outPath = false then
    RunResult.reportedError ("file cannot be opened -- '" ++ outPath ++ "'")
  else
  match c.r with
  | some rawRanks =>
    match parseRanks rawRanks with
    | Except.error m => RunResult.reportedError m
    | Except.ok ks =>
      let t := runRankAll g numPairs.toNat ks rand0
      RunResult.ok outPath
        (filePrologue infile Mode.rank false 0 ++ t.2.1.map renderRecord) t.1 t.2.1
  | none =>
  match c.d with
  | some rawD =>
    match getValueInt (some rawD) with
    | Except.error m => RunResult.reportedError m
    | Except.ok dVal =>
      let t := runDistBatch g dVal c.geoFlag numPairs.toNat rand0
      RunResult.ok outPath
        (filePrologue infile Mode.distance c.geoFlag dVal ++ t.2.1.map renderRecord) t.1 t.2.1
  | none =>
      let t := runUniformBatch g numPairs.toNat rand0
      RunResult.ok outPath
        (filePrologue infile Mode.uniform false 0 ++ t.2.1.map renderRecord) t.1 t.2.1

/-! ## Accessors over run results -/

def runCalls : RunResult → List SamplerCall
  | RunResult.ok _ _ cs _ => cs
  | _ => []

def runRecords : RunResult → List Record
  | RunResult.ok _ _ _ rs => rs
  | _ => []

def runFile : RunResult → List String
  | RunResult.ok _ f _ _ => f
  | _ => []

def runPathD : RunResult → String
  | RunResult.ok p _ _ _ => p
  | _ => ""

def isOk : RunResult → Bool
  | RunResult.ok _ _ _ _ => true
  | _ => false

/-- Number of comma characters in a string: one below the field count of a
CSV row. -/
def commaCount (str : String) : Nat := str.toList.count ','

/-! ## Concrete fixtures

A small input graph and concrete command lines, used to evaluate the claims
on explicit inputs. -/

/-- A directed triangle with unit travel times and physical length 5. -/
def testGraph : Graph :=
  Graph.mk [[Edge.mk 1 5 1], [Edge.mk 2 5 1], [Edge.mk 0 5 1]]

/-- World where the graph file parses and every output path opens. -/
def envW : Env := Env.mk (some testGraph) (fun _ => true)

/-- World where the graph file parses but no output path opens. -/
def envNoOut : Env := Env.mk (some testGraph) (fun _ => false)

def cmdUniform : Cmdline :=
  Cmdline.mk false (some "2") none false none none false (some "g.bin") (some "out")

def cmdUniform1 : Cmdline :=
  Cmdline.mk false (some "1") none false none none false (some "g.bin") (some "out")

def cmdDist7 : Cmdline :=
  Cmdline.mk false (some "2") none false none (some "7") false (some "g.bin") (some "out")

def cmdRank2 : Cmdline :=
  Cmdline.mk false (some "2") none false (some ["2", "1"]) none false (some "g.bin") (some "out")

def cmdRank31 : Cmdline :=
  Cmdline.mk false (some "1") none false (some ["31"]) none false (some "g.bin") (some "out")

def cmdBadN : Cmdline :=
  Cmdline.mk false (some "abc") none false none none false (some "g.bin") (some "out")

/-! ## Structural lemmas about the batch loops -/

theorem runUniformBatch_calls (g : Graph) (n : Nat) :
    ∀ s, (runUniformBatch g n s).1 = List.replicate n SamplerCall.uniform := by
  induction n with
  | zero => intro s; rfl
  | succ n ih =>
    intro s
    simp only [runUniformBatch, List.replicate]
    exact congrArg _ (ih _)

theorem runUniformBatch_length (g : Graph) (n : Nat) :
    ∀ s, (runUniformBatch g n s).2.1.length = n := by
  induction n with
  | zero => intro s; rfl
  | succ n ih =>
    intro s
    simp only [runUniformBatch, List.length_cons]
    exact congrArg _ (ih _)

theorem runRankBatch_calls (g : Graph) (arg : Int) (n : Nat) :
    ∀ s, (runRankBatch g arg n s).1 = List.replicate n (SamplerCall.byRank arg) := by
  induction n with
  | zero => intro s; rfl
  | succ n ih =>
    intro s
    simp only [runRankBatch, List.replicate]
    exact congrArg _ (ih _)

theorem runRankBatch_length (g : Graph) (arg : Int) (n : Nat) :
    ∀ s, (runRankBatch g arg n s).2.1.length = n := by
  induction n with
  | zero => intro s; rfl
  | succ n ih =>
    intro s
    simp only [runRankBatch, List.length_cons]
    exact congrArg _ (ih _)

theorem runRankBatch_records_rank (g : Graph) (arg : Int) (n : Nat) :
    ∀ s, ∀ rec ∈ (runRankBatch g arg n s).2.1, rec.rank = some arg := by
  induction n with
  | zero =>
    intro s rec hrec
    simp [runRankBatch] at hrec
  | succ n ih =>
    intro s rec hrec
    simp only [runRankBatch, List.mem_cons] at hrec
    rcases hrec with h | h
    · rw [h]
    · exact ih _ rec h

theorem runRankAll_calls_mem (g : Graph) (np : Nat) (ks : List Int) :
    ∀ s, ∀ call ∈ (runRankAll g np ks s).1, ∃ k ∈ ks, call = SamplerCall.byRank (shl32 k) := by
  induction ks with
  | nil =>
    intro s call hcall
    simp [runRankAll] at hcall
  | cons k ks ih =>
    intro s call hcall
    simp only [runRankAll, List.mem_append] at hcall
    rcases hcall with h | h
    · rw [runRankBatch_calls] at h
      refine ⟨k, List.mem_cons_self _ _, ?_⟩
      exact List.eq_of_mem_replicate h
    · obtain ⟨k', hk', hcall'⟩ := ih _ call h
      exact ⟨k', List.mem_cons_of_mem _ hk', hcall'⟩

theorem runRankAll_mem_calls (g : Graph) (np : Nat) (ks : List Int) :
    ∀ s, ∀ k ∈ ks, 0 < np → SamplerCall.byRank (shl32 k) ∈ (runRankAll g np ks s).1 := by
  induction ks with
  | nil =>
    intro s k hk _
    simp at hk
  | cons k0 ks ih =>
    intro s k hk hnp
    simp only [List.mem_cons] at hk
    simp only [runRankAll, List.mem_append]
    rcases hk with h | h
    · left
      rw [h, runRankBatch_calls]
      exact List.mem_replicate.2 ⟨Nat.ne_of_gt hnp, rfl⟩
    · right
      exact ih _ k h hnp

theorem runRankAll_length (g : Graph) (np : Nat) (ks : List Int) :
    ∀ s, (runRankAll g np ks s).2.1.length = np * ks.length := by
  induction ks with
  | nil => intro s; simp [runRankAll]
  | cons k ks ih =>
    intro s
    simp only [runRankAll, List.length_append, runRankBatch_length, ih, List.length_cons]
    ring

theorem runRankAll_records_rank (g : Graph) (np : Nat) (ks : List Int) :
    ∀ s, ∀ rec ∈ (runRankAll g np ks s).2.1, ∃ k ∈ ks, rec.rank = some (shl32 k) := by
  induction ks with
  | nil =>
    intro s rec hrec
    simp [runRankAll] at hrec
  | cons k ks ih =>
    intro s rec hrec
    simp only [runRankAll, List.mem_append] at hrec
    rcases hrec with h | h
    · exact ⟨k, List.mem_cons_self _ _, runRankBatch_records_rank g _ np _ rec h⟩
    · obtain ⟨k', hk', h'⟩ := ih _ rec h
      exact ⟨k', List.mem_cons_of_mem _ hk', h'⟩

theorem runDistBatch_calls (g : Graph) (dVal : Int) (n : Nat) :
    ∀ s, (runDistBatch g dVal false n s).1 = List.replicate n (SamplerCall.byDistance dVal) := by
  induction n with
  | zero => intro s; rfl
  | succ n ih =>
    intro s
    simp only [runDistBatch, List.replicate]
    exact congrArg _ (ih _)

theorem runDistBatch_calls_shape (g : Graph) (dVal : Int) (isGeo : Bool) (n : Nat) :
    ∀ s, ∀ call ∈ (runDistBatch g dVal isGeo n s).1, ∃ a, call = SamplerCall.byDistance a := by
  induction n with
  | zero =>
    intro s call hcall
    simp [runDistBatch] at hcall
  | succ n ih =>
    intro s call hcall
    simp only [runDistBatch, List.mem_cons] at hcall
    rcases hcall with h | h
    · exact ⟨_, h⟩
    · exact ih _ call h

theorem runDistBatch_length (g : Graph) (dVal : Int) (isGeo : Bool) (n : Nat) :
    ∀ s, (runDistBatch g dVal isGeo n s).2.1.length = n := by
  induction n with
  | zero => intro s; rfl
  | succ n ih =>
    intro s
    simp only [runDistBatch, List.length_cons]
    exact congrArg _ (ih _)

/-! ## Characterization of the driver on each branch

Each lemma fixes the outcome of `runParsed` under hypotheses naming the
values of the successfully processed options. -/

theorem runParsed_uniform_eq (env : Env) (c : Cmdline) (np : Int) (fi fo : String)
    (sd : Int) (g0 : Graph)
    (hh : c.helpFlag = false) (hn : getValueInt c.n = Except.ok np)
    (hi : c.i = some fi) (ho : c.o = some fo)
    (hs : getValueIntD c.s 19900325 = Except.ok sd)
    (hg : env.graphFile = some g0)
    (hw : env.outWritable (fo ++ ".csv") = true)
    (hr : c.r = none) (hd : c.d = none) :
    runParsed env c =
      RunResult.ok (fo ++ ".csv")
        (filePrologue fi Mode.uniform false 0 ++
          ((runUniformBatch (if c.lenFlag then applyLenCost g0 else g0) np.toNat
              (engineSeed sd)).2.1.map renderRecord))
        (runUniformBatch (if c.lenFlag then applyLenCost g0 else g0) np.toNat (engineSeed sd)).1
        (runUniformBatch (if c.lenFlag then applyLenCost g0 else g0) np.toNat
          (engineSeed sd)).2.1 := by
  simp only [runParsed, hh, hn, hi, ho, hs, hg, hw, hr, hd, getValueStr, Bool.false_eq_true,
    if_false]
  simp

theorem runParsed_rank_eq (env : Env) (c : Cmdline) (np : Int) (fi fo : String)
    (sd : Int) (g0 : Graph) (raw : List String) (ks : List Int)
    (hh : c.helpFlag = false) (hn : getValueInt c.n = Except.ok np)
    (hi : c.i = some fi) (ho : c.o = some fo)
    (hs : getValueIntD c.s 19900325 = Except.ok sd)
    (hg : env.graphFile = some g0)
    (hw : env.outWritable (fo ++ ".csv") = true)
    (hr : c.r = some raw) (hks : parseRanks raw = Except.ok ks) :
    runParsed env c =
      RunResult.ok (fo ++ ".csv")
        (filePrologue fi Mode.rank false 0 ++
          ((runRankAll (if c.lenFlag then applyLenCost g0 else g0) np.toNat ks
              (engineSeed sd)).2.1.map renderRecord))
        (runRankAll (if c.lenFlag then applyLenCost g0 else g0) np.toNat ks (engineSeed sd)).1
        (runRankAll (if c.lenFlag then applyLenCost g0 else g0) np.toNat ks
          (engineSeed sd)).2.1 := by
  simp only [runParsed, hh, hn, hi, ho, hs, hg, hw, hr, hks, getValueStr, Bool.false_eq_true,
    if_false]
  simp

theorem runParsed_rank_err (env : Env) (c : Cmdline) (np : Int) (fi fo : String)
    (sd : Int) (g0 : Graph) (raw : List String) (m : String)
    (hh : c.helpFlag = false) (hn : getValueInt c.n = Except.ok np)
    (hi : c.i = some fi) (ho : c.o = some fo)
    (hs : getValueIntD c.s 19900325 = Except.ok sd)
    (hg : env.graphFile = some g0)
    (hw : env.outWritable (fo ++ ".csv") = true)
    (hr : c.r = some raw) (hks : parseRanks raw = Except.error m) :
    runParsed env c = RunResult.reportedError m := by
  simp only [runParsed, hh, hn, hi, ho, hs, hg, hw, hr, hks, getValueStr, Bool.false_eq_true,
    if_false]
  simp

theorem runParsed_dist_eq (env : Env) (c : Cmdline) (np : Int) (fi fo : String)
    (sd : Int) (g0 : Graph) (rawD : String) (dVal : Int)
    (hh : c.helpFlag = false) (hn : getValueInt c.n = Except.ok np)
    (hi : c.i = some fi) (ho : c.o = some fo)
    (hs : getValueIntD c.s 19900325 = Except.ok sd)
    (hg : env.graphFile = some g0)
    (hw : env.outWritable (fo ++ ".csv") = true)
    (hr : c.r = none) (hd : c.d = some rawD) (hD : parseIntStr rawD = some dVal) :
    runParsed env c =
      RunResult.ok (fo ++ ".csv")
        (filePrologue fi Mode.distance c.geoFlag dVal ++
          ((runDistBatch (if c.lenFlag then applyLenCost g0 else g0) dVal c.geoFlag np.toNat
              (engineSeed sd)).2.1.map renderRecord))
        (runDistBatch (if c.lenFlag then applyLenCost g0 else g0) dVal c.geoFlag np.toNat
          (engineSeed sd)).1
        (runDistBatch (if c.lenFlag then applyLenCost g0 else g0) dVal c.geoFlag np.toNat
          (engineSeed sd)).2.1 := by
  have hD2 : getValueInt (some rawD) = Except.ok dVal := by
    simp [getValueInt, hD]
  simp only [runParsed, hh, hn, hi, ho, hs, hg, hw, hr, hd, hD2, getValueStr,
    Bool.false_eq_true, if_false]
  simp

theorem runParsed_dist_err (env : Env) (c : Cmdline) (np : Int) (fi fo : String)
    (sd : Int) (g0 : Graph) (rawD : String)
    (hh : c.helpFlag = false) (hn : getValueInt c.n = Except.ok np)
    (hi : c.i = some fi) (ho : c.o = some fo)
    (hs : getValueIntD c.s 19900325 = Except.ok sd)
    (hg : env.graphFile = some g0)
    (hw : env.outWritable (fo ++ ".csv") = true)
    (hr : c.r = none) (hd : c.d = some rawD) (hD : parseIntStr rawD = none) :
    runParsed env c = RunResult.reportedError ("invalid argument -- '" ++ rawD ++ "'") := by
  have hD2 : getValueInt (some rawD) = Except.error ("invalid argument -- '" ++ rawD ++ "'") := by
    simp [getValueInt, hD]
  simp only [runParsed, hh, hn, hi, ho, hs, hg, hw, hr, hd, hD2, getValueStr,
    Bool.false_eq_true, if_false]
  simp

theorem runParsed_outfail (env : Env) (c : Cmdline) (np : Int) (fi fo : String)
    (sd : Int) (g0 : Graph)
    (hh : c.helpFlag = false) (hn : getValueInt c.n = Except.ok np)
    (hi : c.i = some fi) (ho : c.o = some fo)
    (hs : getValueIntD c.s 19900325 = Except.ok sd)
    (hg : env.graphFile = some g0)
    (hw : env.outWritable (fo ++ ".csv") = false) :
    runParsed env c =
      RunResult.reportedError ("file cannot be opened -- '" ++ (fo ++ ".csv") ++ "'") := by
  simp only [runParsed, hh, hn, hi, ho, hs, hg, hw, getValueStr, Bool.false_eq_true, if_false]
  simp

/-! ## Arithmetic helper lemmas -/

theorem shiftLeft_one_eq_pow (t : Nat) : Nat.shiftLeft 1 t = 2 ^ t := by
  rw [show Nat.shiftLeft 1 t = 1 <<< t from rfl, Nat.shiftLeft_eq, one_mul]

/-- For exponents 0 to 30 the 32-bit left shift agrees with the mathematical
power of two. -/
theorem shl32_eq_pow (k : Int) (h0 : 0 ≤ k) (h30 : k ≤ 30) :
    shl32 k = (2 : Int) ^ k.toNat := by
  have ht : k.toNat ≤ 30 := by omega
  have h2 : (2 : Nat) ^ k.toNat < 2147483648 :=
    lt_of_le_of_lt (Nat.pow_le_pow_right (by norm_num) ht) (by norm_num)
  simp only [shl32, int32OfNat, shiftLeft_one_eq_pow]
  rw [Nat.mod_eq_of_lt (by omega)]
  rw [if_pos h2]
  push_cast
  ring

/-- Appending the `.csv` suffix never yields the original path back. -/
theorem append_csv_ne (str : String) : str ++ ".csv" ≠ str := by
  intro h
  have hlen := congrArg String.length h
  rw [String.length_append] at hlen
  have : (".csv" : String).length = 4 := rfl
  omega

/-- The expected value of `std::geometric_distribution` at the parameter the
driver uses for target distance 2 is 1, i.e. `targetDistance - 1`. -/
theorem geometric_mean_half :
    HasSum (fun k : Nat => (k : Real) * geometricPMF (cppGeoParam 2) k) 1 := by
  have hr : ‖(1/2 : Real)‖ < 1 := by
    rw [Real.norm_eq_abs]
    rw [abs_of_pos (by norm_num)]
    norm_num
  have h := hasSum_coe_mul_geometric_of_norm_lt_one hr
  have h2 := h.mul_left (1/2 : Real)
  have hp : cppGeoParam 2 = (1/2 : Real) := by
    norm_num [cppGeoParam]
  have h1p : (1 : Real) - 1/2 = 1/2 := by norm_num
  have hfun : (fun k : Nat => (k : Real) * geometricPMF (cppGeoParam 2) k)
      = fun n : Nat => (1/2 : Real) * ((n : Real) * (1/2 : Real) ^ n) := by
    funext n
    simp only [geometricPMF, hp, h1p]
    ring
  have hval : ((1/2 : Real) * ((1/2 : Real) / (1 - 1/2 : Real) ^ 2)) = 1 := by norm_num
  rw [hval] at h2
  rw [hfun]
  exact h2

/-! ## The claims -/

/-- C1: the claim states that in geometric mode the per-call target distance
is drawn from a geometric distribution with mean `targetDistance` realized
with success probability `1/targetDistance`.  The code's
`std::geometric_distribution<>(1.0/distance)` counts failures before the
first success, and at `targetDistance = 2` its expected value is 1, not 2
(in general `targetDistance - 1`), contradicting both the claim and the
program's own help text, which promises expected value `-d`. -/
theorem C1_geometric_mean_off_by_one :
    HasSum (fun k : Nat => (k : Real) * geometricPMF (cppGeoParam 2) k) 1 ∧
    (1 : Real) ≠ 2 :=
  ⟨geometric_mean_half, by norm_num⟩

/-- C2: the claim states the rank column is present only in rank-targeted
mode and the output in uniform mode has only origin and destination columns.
On a concrete uniform-mode run the column-header line of the file names the
three columns `origin,destination,dijkstra_rank` (two commas) while the one
data row has just two fields (one comma): the code's header contradicts the
rows it writes. -/
theorem C2_rank_header_in_all_modes :
    modeOf cmdUniform1 = Mode.uniform ∧
    (runFile (runParsed envW cmdUniform1)).getD 2 "" = columnHeader ∧
    commaCount columnHeader = 2 ∧
    (runFile (runParsed envW cmdUniform1)).length = 4 ∧
    commaCount ((runFile (runParsed envW cmdUniform1)).getD 3 "") = 1 := by
  refine ⟨rfl, ?_, ?_, ?_, ?_⟩ <;> decide

/-- C3: the claim states every configuration error is reported with a
corrective message and a failure exit status.  With the malformed count
`-n abc` the `invalid_argument` raised by `getValue<int>("n")` at line 56 is
thrown outside both try blocks, so the run terminates via an uncaught
exception instead of the reported-error path. -/
theorem C3_malformed_count_uncaught :
    runParsed envW cmdBadN = RunResult.uncaught "invalid argument -- 'abc'" ∧
    isOk (runParsed envW cmdBadN) = false :=
  ⟨by decide, by decide⟩

/-- C4: for a fixed world (graph file, file system) and command line, the run
outcome is a single deterministic value: any two runs coincide, because all
randomness comes from the engine seeded at line 61 and threaded sequentially
through every draw. -/
theorem C4_reproducibility (env : Env) (c : Cmdline) (r1 r2 : RunResult)
    (h1 : runParsed env c = r1) (h2 : runParsed env c = r2) : r1 = r2 :=
  h1.symm.trans h2

theorem C4_reproducibility_witness :
    runParsed envW cmdUniform = runParsed envW cmdUniform :=
  C4_reproducibility envW cmdUniform
    (runParsed envW cmdUniform) (runParsed envW cmdUniform) rfl rfl

/-- C5 counterexample: with the rank list `[31]`, the sampler is invoked with
the 32-bit value of `1 << 31`, which is `-2147483648` and not `2^31`; the
record's rank field carries the same overflowed value. -/
theorem C5_shift_overflow_counterexample :
    runCalls (runParsed envW cmdRank31) = [SamplerCall.byRank (-2147483648)] ∧
    (runRecords (runParsed envW cmdRank31)).map Record.rank = [some (-2147483648)] ∧
    (-2147483648 : Int) ≠ (2 : Int) ^ (31 : Int).toNat :=
  ⟨by decide, by decide, by decide⟩

/-- C5 (amended): in rank-targeted mode every sampler invocation and every
record rank field uses the 32-bit shift `1 << k` of some listed `k`, every
listed `k` is exercised when the pair count is positive, and for
`0 ≤ k ≤ 30` the shifted value equals the mathematical `2^k`; at `k ≥ 31`
the 32-bit shift overflows and differs from `2^k`. -/
theorem C5_rank_shift_amended (env : Env) (c : Cmdline) (np : Int) (fi fo : String)
    (sd : Int) (g0 : Graph) (raw : List String) (ks : List Int)
    (hh : c.helpFlag = false) (hn : getValueInt c.n = Except.ok np)
    (hi : c.i = some fi) (ho : c.o = some fo)
    (hs : getValueIntD c.s 19900325 = Except.ok sd)
    (hg : env.graphFile = some g0)
    (hw : env.outWritable (fo ++ ".csv") = true)
    (hr : c.r = some raw) (hks : parseRanks raw = Except.ok ks) :
    (∀ call ∈ runCalls (runParsed env c), ∃ k ∈ ks, call = SamplerCall.byRank (shl32 k)) ∧
    (∀ k ∈ ks, 0 < np.toNat → SamplerCall.byRank (shl32 k) ∈ runCalls (runParsed env c)) ∧
    (∀ rec ∈ runRecords (runParsed env c), ∃ k ∈ ks, rec.rank = some (shl32 k)) ∧
    (∀ k : Int, 0 ≤ k → k ≤ 30 → shl32 k = (2 : Int) ^ k.toNat) := by
  rw [runParsed_rank_eq env c np fi fo sd g0 raw ks hh hn hi ho hs hg hw hr hks]
  simp only [runCalls, runRecords]
  exact ⟨runRankAll_calls_mem _ np.toNat ks (engineSeed sd),
    fun k hk hnp => runRankAll_mem_calls _ np.toNat ks (engineSeed sd) k hk hnp,
    runRankAll_records_rank _ np.toNat ks (engineSeed sd),
    fun k hk0 hk30 => shl32_eq_pow k hk0 hk30⟩

theorem C5_rank_shift_amended_witness :
    (shl32 2 = (2 : Int) ^ (2 : Int).toNat) ∧
    SamplerCall.byRank (shl32 2) ∈ runCalls (runParsed envW cmdRank2) :=
  ⟨(C5_rank_shift_amended envW cmdRank2 2 "g.bin" "out" 19900325 testGraph ["2", "1"] [2, 1]
      rfl rfl rfl rfl rfl rfl rfl rfl rfl).2.2.2 2 (by decide) (by decide),
   (C5_rank_shift_amended envW cmdRank2 2 "g.bin" "out" 19900325 testGraph ["2", "1"] [2, 1]
      rfl rfl rfl rfl rfl rfl rfl rfl rfl).2.1 2 (by decide) (by decide)⟩

/-- C6: every sampler invocation of a run belongs to the single mode selected
by the if / else-if / else chain, and that mode is rank exactly when `-r` is
given, distance exactly when `-r` is absent and `-d` given, and uniform
exactly when neither is given. -/
theorem C6_mode_mutual_exclusion (env : Env) (c : Cmdline) (np : Int) (fi fo : String)
    (sd : Int) (g0 : Graph)
    (hh : c.helpFlag = false) (hn : getValueInt c.n = Except.ok np)
    (hi : c.i = some fi) (ho : c.o = some fo)
    (hs : getValueIntD c.s 19900325 = Except.ok sd)
    (hg : env.graphFile = some g0)
    (hw : env.outWritable (fo ++ ".csv") = true) :
    (∀ call ∈ runCalls (runParsed env c), callMode call = modeOf c) ∧
    (modeOf c = Mode.rank ↔ c.r.isSome = true) ∧
    (modeOf c = Mode.distance ↔ (c.r = none ∧ c.d.isSome = true)) ∧
    (modeOf c = Mode.uniform ↔ (c.r = none ∧ c.d = none)) := by
  refine ⟨?_, ?_, ?_, ?_⟩
  · intro call hcall
    cases hr : c.r with
    | some raw =>
      have hmode : modeOf c = Mode.rank := by simp [modeOf, hr]
      rw [hmode]
      cases hks : parseRanks raw with
      | error m =>
        rw [runParsed_rank_err env c np fi fo sd g0 raw m hh hn hi ho hs hg hw hr hks] at hcall
        simp [runCalls] at hcall
      | ok ks =>
        rw [runParsed_rank_eq env c np fi fo sd g0 raw ks hh hn hi ho hs hg hw hr hks] at hcall
        simp only [runCalls] at hcall
        obtain ⟨k, _, hcalleq⟩ := runRankAll_calls_mem _ np.toNat ks (engineSeed sd) call hcall
        rw [hcalleq]
        rfl
    | none =>
      cases hd : c.d with
      | some rawD =>
        have hmode : modeOf c = Mode.distance := by simp [modeOf, hr, hd]
        rw [hmode]
        cases hD : parseIntStr rawD with
        | none =>
          rw [runParsed_dist_err env c np fi fo sd g0 rawD hh hn hi ho hs hg hw hr hd hD] at hcall
          simp [runCalls] at hcall
        | some dVal =>
          rw [runParsed_dist_eq env c np fi fo sd g0 rawD dVal
            hh hn hi ho hs hg hw hr hd hD] at hcall
          simp only [runCalls] at hcall
          obtain ⟨a, ha⟩ :=
            runDistBatch_calls_shape _ dVal c.geoFlag np.toNat (engineSeed sd) call hcall
          rw [ha]
          rfl
      | none =>
        have hmode : modeOf c = Mode.uniform := by simp [modeOf, hr, hd]
        rw [hmode]
        rw [runParsed_uniform_eq env c np fi fo sd g0 hh hn hi ho hs hg hw hr hd] at hcall
        simp only [runCalls] at hcall
        rw [runUniformBatch_calls] at hcall
        rw [List.eq_of_mem_replicate hcall]
        rfl
  · cases hr : c.r <;> cases hd : c.d <;> simp [modeOf, hr, hd]
  · cases hr : c.r <;> cases hd : c.d <;> simp [modeOf, hr, hd]
  · cases hr : c.r <;> cases hd : c.d <;> simp [modeOf, hr, hd]

theorem C6_mode_mutual_exclusion_witness :
    (callMode SamplerCall.uniform = modeOf cmdUniform) ∧
    (modeOf cmdUniform = Mode.uniform ↔ (cmdUniform.r = none ∧ cmdUniform.d = none)) :=
  ⟨(C6_mode_mutual_exclusion envW cmdUniform 2 "g.bin" "out" 19900325 testGraph
      rfl rfl rfl rfl rfl rfl rfl).1 SamplerCall.uniform (by decide),
   (C6_mode_mutual_exclusion envW cmdUniform 2 "g.bin" "out" 19900325 testGraph
      rfl rfl rfl rfl rfl rfl rfl).2.2.2⟩

/-- C7: in distance-targeted mode without the geometric flag, every sampler
invocation of the run passes exactly the configured target distance: the
call list is `count` copies of `byDistance targetDistance`. -/
theorem C7_fixed_distance_target (env : Env) (c : Cmdline) (np : Int) (fi fo : String)
    (sd : Int) (g0 : Graph) (rawD : String) (dVal : Int)
    (hh : c.helpFlag = false) (hn : getValueInt c.n = Except.ok np)
    (hi : c.i = some fi) (ho : c.o = some fo)
    (hs : getValueIntD c.s 19900325 = Except.ok sd)
    (hg : env.graphFile = some g0)
    (hw : env.outWritable (fo ++ ".csv") = true)
    (hr : c.r = none) (hd : c.d = some rawD) (hD : parseIntStr rawD = some dVal)
    (hgeo : c.geoFlag = false) :
    runCalls (runParsed env c) = List.replicate np.toNat (SamplerCall.byDistance dVal) := by
  rw [runParsed_dist_eq env c np fi fo sd g0 rawD dVal hh hn hi ho hs hg hw hr hd hD]
  show (runDistBatch _ dVal c.geoFlag np.toNat (engineSeed sd)).1 = _
  rw [hgeo]
  exact runDistBatch_calls _ _ _ _

theorem C7_fixed_distance_target_witness :
    runCalls (runParsed envW cmdDist7) =
      List.replicate (2 : Int).toNat (SamplerCall.byDistance 7) :=
  C7_fixed_distance_target envW cmdDist7 2 "g.bin" "out" 19900325 testGraph "7" 7
    rfl rfl rfl rfl rfl rfl rfl rfl rfl rfl rfl

/-- C8: the number of records produced equals the count in uniform and
distance-targeted mode, and the count times the number of listed ranks in
rank-targeted mode. -/
theorem C8_record_counts (env : Env) (c : Cmdline) (np : Int) (fi fo : String)
    (sd : Int) (g0 : Graph)
    (hh : c.helpFlag = false) (hn : getValueInt c.n = Except.ok np)
    (hi : c.i = some fi) (ho : c.o = some fo)
    (hs : getValueIntD c.s 19900325 = Except.ok sd)
    (hg : env.graphFile = some g0)
    (hw : env.outWritable (fo ++ ".csv") = true)
    (h0 : 0 ≤ np) :
    (c.r = none → c.d = none → ((runRecords (runParsed env c)).length : Int) = np) ∧
    (∀ raw ks, c.r = some raw → parseRanks raw = Except.ok ks →
       ((runRecords (runParsed env c)).length : Int) = np * ks.length) ∧
    (∀ rawD dVal, c.r = none → c.d = some rawD → parseIntStr rawD = some dVal →
       ((runRecords (runParsed env c)).length : Int) = np) := by
  refine ⟨?_, ?_, ?_⟩
  · intro hr hd
    rw [runParsed_uniform_eq env c np fi fo sd g0 hh hn hi ho hs hg hw hr hd]
    simp only [runRecords]
    rw [runUniformBatch_length]
    exact Int.toNat_of_nonneg h0
  · intro raw ks hr hks
    rw [runParsed_rank_eq env c np fi fo sd g0 raw ks hh hn hi ho hs hg hw hr hks]
    simp only [runRecords]
    rw [runRankAll_length]
    push_cast
    rw [Int.toNat_of_nonneg h0]
  · intro rawD dVal hr hd hD
    rw [runParsed_dist_eq env c np fi fo sd g0 rawD dVal hh hn hi ho hs hg hw hr hd hD]
    simp only [runRecords]
    rw [runDistBatch_length]
    exact Int.toNat_of_nonneg h0

theorem C8_record_counts_witness :
    ((runRecords (runParsed envW cmdRank2)).length : Int) =
      2 * (([2, 1] : List Int).length : Int) :=
  (C8_record_counts envW cmdRank2 2 "g.bin" "out" 19900325 testGraph
    rfl rfl rfl rfl rfl rfl rfl (by decide)).2.1 ["2", "1"] [2, 1] rfl rfl

/-- C9: when `-s` is absent, the seed defaults to the constant 19900325
(line 61), and the run is identical to the run with `-s 19900325` supplied
explicitly. -/
theorem C9_default_seed (env : Env) (c : Cmdline) (hs : c.s = none) :
    getValueIntD c.s 19900325 = Except.ok 19900325 ∧
    runParsed env c = runParsed env (withSeed c (some "19900325")) := by
  obtain ⟨hf, n, sOpt, lf, r, d, gf, i, o⟩ := c
  dsimp only at hs
  subst hs
  exact ⟨rfl, rfl⟩

theorem C9_default_seed_witness :
    getValueIntD cmdUniform.s 19900325 = Except.ok 19900325 ∧
    runParsed envW cmdUniform = runParsed envW (withSeed cmdUniform (some "19900325")) :=
  C9_default_seed envW cmdUniform rfl

/-- C10: a successful run writes to the `-o` path with `.csv` appended,
which is never the `-o` path itself, and when that suffixed path cannot be
opened the run ends in the reported-error branch (corrective message,
failure exit status). -/
theorem C10_output_path_suffix (env : Env) (c : Cmdline) (np : Int) (fi fo : String)
    (sd : Int) (g0 : Graph)
    (hh : c.helpFlag = false) (hn : getValueInt c.n = Except.ok np)
    (hi : c.i = some fi) (ho : c.o = some fo)
    (hs : getValueIntD c.s 19900325 = Except.ok sd)
    (hg : env.graphFile = some g0) :
    (isOk (runParsed env c) = true →
       runPathD (runParsed env c) = fo ++ ".csv" ∧ runPathD (runParsed env c) ≠ fo) ∧
    (env.outWritable (fo ++ ".csv") = false →
       runParsed env c =
         RunResult.reportedError ("file cannot be opened -- '" ++ (fo ++ ".csv") ++ "'")) := by
  constructor
  · intro hok
    by_cases hw : env.outWritable (fo ++ ".csv") = true
    · cases hr : c.r with
      | some raw =>
        cases hks : parseRanks raw with
        | error m =>
          rw [runParsed_rank_err env c np fi fo sd g0 raw m hh hn hi ho hs hg hw hr hks] at hok
          simp [isOk] at hok
        | ok ks =>
          rw [runParsed_rank_eq env c np fi fo sd g0 raw ks hh hn hi ho hs hg hw hr hks]
          exact ⟨rfl, append_csv_ne fo⟩
      | none =>
        cases hd : c.d with
        | some rawD =>
          cases hD : parseIntStr rawD with
          | none =>
            rw [runParsed_dist_err env c np fi fo sd g0 rawD
              hh hn hi ho hs hg hw hr hd hD] at hok
            simp [isOk] at hok
          | some dVal =>
            rw [runParsed_dist_eq env c np fi fo sd g0 rawD dVal hh hn hi ho hs hg hw hr hd hD]
            exact ⟨rfl, append_csv_ne fo⟩
        | none =>
          rw [runParsed_uniform_eq env c np fi fo sd g0 hh hn hi ho hs hg hw hr hd]
          exact ⟨rfl, append_csv_ne fo⟩
    · rw [Bool.not_eq_true] at hw
      rw [runParsed_outfail env c np fi fo sd g0 hh hn hi ho hs hg hw] at hok
      simp [isOk] at hok
  · intro hw
    exact runParsed_outfail env c np fi fo sd g0 hh hn hi ho hs hg hw

theorem C10_output_path_suffix_witness :
    (runPathD (runParsed envW cmdUniform) = "out" ++ ".csv" ∧
      runPathD (runParsed envW cmdUniform) ≠ "out") ∧
    runParsed envNoOut cmdUniform =
      RunResult.reportedError ("file cannot be opened -- '" ++ ("out" ++ ".csv") ++ "'") :=
  ⟨(C10_output_path_suffix envW cmdUniform 2 "g.bin" "out" 19900325 testGraph
      rfl rfl rfl rfl rfl rfl).1 rfl,
   (C10_output_path_suffix envNoOut cmdUniform 2 "g.bin" "out" 19900325 testGraph
      rfl rfl rfl rfl rfl rfl).2 rfl⟩

end GenODP
